import Mathlib

/-!
# Verification of `stock_system/backtest.py`

A shallow embedding of the trade simulator (`backtest_strategy`, lines 32–103)
and the performance statistics engine (`summarize_backtest`, lines 106–149) of
`src/stock_system/backtest.py`, together with theorems settling the frozen
claims about the natural-language specification of this core.

Modelling conventions:
* calendar dates are day numbers (`Nat`); `pd.to_datetime` on this canonical
  form is the identity, and `timedelta(days = n)` is addition of `n`;
* prices and returns are exact rationals (`ℚ`), standing for the Python floats;
* a `DataFrame` is a list of typed rows, iterated in row order;
* `float`-valued transcendental results (`** (252/periods)`, `sqrt`) live
  in `ℝ`.
-/

namespace StockSystem

/-- A row of the `prices` frame: `{ticker, date, close}`. -/
structure PriceRow where
  ticker : String
  date : Nat
  close : ℚ
deriving DecidableEq

/-- A row of the `screen_results` frame.  `passes_screen` is optional because
the code reads it as `signal.get("passes_screen", True)`. -/
structure SignalRow where
  ticker : String
  date_screened : Nat
  passes_screen : Option Bool
deriving DecidableEq

/-- Embedding of `BacktestConfig` (lines 12–15).  The dataclass has exactly these two
fields: `hold_days: int = 180` and `transaction_cost_bps: float = 0.0`. -/
structure BacktestConfig where
  hold_days : Nat := 180
  transaction_cost_bps : ℚ := 0
deriving DecidableEq

/-- One emitted trade row (the dict appended at lines 89–101).  The ISO
rendering of dates is kept abstract: fields hold the underlying day numbers. -/
structure Trade where
  ticker : String
  signal_date : Nat
  buy_date : Nat
  sell_date : Nat
  hold_days : Nat
  buy_price : ℚ
  sell_price : ℚ
  return_pct : ℚ
  reason_exit : String
deriving DecidableEq

/-- The lexicographic `(ticker, date)` order of
`df.sort_values(["ticker", "date"])` (line 21).  Ticker strings compare by
code points, i.e. lexicographically on their character lists. -/
def priceLe (a b : PriceRow) : Prop :=
  a.ticker.data < b.ticker.data ∨ (a.ticker = b.ticker ∧ a.date ≤ b.date)

instance : DecidableRel priceLe := fun a b => by
  unfold priceLe; infer_instance

theorem string_eq_of_data_eq {s t : String} (h : s.data = t.data) : s = t := by
  cases s; cases t; exact congrArg String.mk h

instance : IsTotal PriceRow priceLe where
  total a b := by
    rcases lt_trichotomy a.ticker.data b.ticker.data with h | h | h
    · exact Or.inl (Or.inl h)
    · rcases Nat.le_total a.date b.date with hd | hd
      · exact Or.inl (Or.inr ⟨string_eq_of_data_eq h, hd⟩)
      · exact Or.inr (Or.inr ⟨string_eq_of_data_eq h.symm, hd⟩)
    · exact Or.inr (Or.inl h)

instance : IsTrans PriceRow priceLe where
  trans a b c hab hbc := by
    rcases hab with h1 | ⟨e1, d1⟩
    · rcases hbc with h2 | ⟨e2, _⟩
      · exact Or.inl (lt_trans h1 h2)
      · exact Or.inl (e2 ▸ h1)
    · rcases hbc with h2 | ⟨e2, d2⟩
      · exact Or.inl (e1 ▸ h2)
      · exact Or.inr ⟨e1.trans e2, d1.trans d2⟩

/-- Embedding of `_normalize_prices` (lines 18–21): copy the frame, normalize the `date`
column (the identity on canonical day numbers) and sort by `(ticker, date)`.
`sort_values` on several keys is pandas's stable lexicographic sort, embedded
as a stable insertion sort. -/
def normalize_prices (prices : List PriceRow) : List PriceRow :=
  List.insertionSort priceLe prices

/-- Embedding of `_price_on_or_after` (lines 24–29): the first row of `ticker_prices` whose
`date` is at or after `target_date`, as a `(date, close)` pair, or `none` when
the filtered subset is empty. -/
def price_on_or_after (ticker_prices : List PriceRow) (target_date : Nat) :
    Option (Nat × ℚ) :=
  (ticker_prices.filter (fun r => target_date ≤ r.date)).head?.map
    (fun row => (row.date, row.close))

/-- The body of the `for _, signal in screen_df.iterrows()` loop of
`backtest_strategy` (lines 59–101), producing `some` trade when one is
appended to `rows` and `none` on each `continue` path.  The emptiness guard
`if ticker_prices.empty: continue` (line 65) and the later access
`ticker_prices.iloc[-1]` (line 77) are both embedded through
`List.getLast?`, which is `none` exactly when the series is empty. -/
def backtest_step (price_df : List PriceRow) (config : BacktestConfig)
    (signal : SignalRow) : Option Trade :=
  if !(signal.passes_screen.getD true) then none
  else
    let ticker_prices := price_df.filter (fun r => r.ticker == signal.ticker)
    match ticker_prices.getLast? with
    | none => none
    | some last_row =>
      match price_on_or_after ticker_prices signal.date_screened with
      | none => none
      | some (buy_date, buy_price) =>
        let target_sell_date := buy_date + config.hold_days
        let (sell_date, sell_price, reason_exit) :=
          match price_on_or_after ticker_prices target_sell_date with
          | none => (last_row.date, last_row.close, "end_of_data")
          | some (d, p) => (d, p, "time_exit")
        let gross_return := (sell_price - buy_price) / buy_price
        let total_cost := 2 * config.transaction_cost_bps / 10000
        let net_return := gross_return - total_cost
        some
          { ticker := signal.ticker
            signal_date := signal.date_screened
            buy_date := buy_date
            sell_date := sell_date
            hold_days := config.hold_days
            buy_price := buy_price
            sell_price := sell_price
            return_pct := net_return * 100
            reason_exit := reason_exit }

/-- Embedding of `backtest_strategy` (lines 32–103).  Empty `screen_results` or `prices`
short-circuit to the empty trade frame (lines 39–52); otherwise prices are
normalized once and each signal row is processed in order, accumulating the
emitted trades. -/
def backtest_strategy (screen_results : List SignalRow)
    (prices : List PriceRow) (config : BacktestConfig) : List Trade :=
  if screen_results.isEmpty || prices.isEmpty then []
  else
    let price_df := normalize_prices prices
    screen_results.filterMap (backtest_step price_df config)

/-! ## Performance statistics engine (`summarize_backtest`, lines 106–149) -/

/-- A row of the `results` frame consumed by `summarize_backtest`.  The code
reads only the `return_pct` column; the date columns ride along (they are what
the specification says the time-ordered metrics should be sorted by). -/
structure ResultRow where
  return_pct : ℚ
  buy_date : Nat
  sell_date : Nat
deriving DecidableEq

/-- Pandas `cumprod`: entry `i` is the product of the first `i + 1` inputs. -/
def cumprod : List ℚ → List ℚ
  | [] => []
  | x :: xs => x :: (cumprod xs).map (x * ·)

/-- Pandas `cummax`: entry `i` is the maximum of the first `i + 1` inputs. -/
def cummax : List ℚ → List ℚ
  | [] => []
  | x :: xs => x :: (cummax xs).map (max x)

/-- Line 123: `equity = (1 + r / 100.0).cumprod()`. -/
def equityCurve (r : List ℚ) : List ℚ :=
  cumprod (r.map (fun x => 1 + x / 100))

/-- Lines 124–125: `drawdowns = equity / running_max - 1` with
`running_max = equity.cummax()`. -/
def drawdownSeries (r : List ℚ) : List ℚ :=
  List.zipWith (fun e m => e / m - 1) (equityCurve r) (cummax (equityCurve r))

/-- Sample variance with `ddof = 1`, i.e. the square of `excess.std(ddof=1)`
(line 133).  For a single observation the `n - 1` denominator is zero and the
rational junk value `0` stands for pandas's `NaN`: both fail the `> 0` test
that guards the Sharpe ratio. -/
def sampleVar (l : List ℚ) : ℚ :=
  (l.map (fun x => (x - l.sum / l.length) ^ 2)).sum / ((l.length : ℚ) - 1)

/-- Line 129: `cagr = float(equity.iloc[-1] ** (252 / periods) - 1)`, a
real-valued power with exponent the float quotient `252 / periods`. -/
noncomputable def cagrVal (equity_final : ℚ) (periods : Nat) : ℝ :=
  (equity_final : ℝ) ^ ((252 : ℝ) / (periods : ℝ)) - 1

/-- Line 134: `(excess.mean() / excess.std(ddof=1)) * np.sqrt(252)`. -/
noncomputable def sharpeVal (mean_excess sample_var : ℚ) : ℝ :=
  ((mean_excess : ℝ) / Real.sqrt (sample_var : ℝ)) * Real.sqrt 252

/-- Lines 136–137: `stats.binomtest(wins, n, p=0.5, alternative="greater")`
has the exact one-sided p-value `P[X ≥ wins]` for `X ~ Binom(n, 1/2)`. -/
def binomTailP (wins n : Nat) : ℚ :=
  (((List.range (n + 1)).filter (fun k => wins ≤ k)).map
    (fun k => (n.choose k : ℚ))).sum / 2 ^ n

/-- The summary mapping returned by `summarize_backtest`.  Field `sharpe`
(named after the local variable at lines 132–134) holds the value stored under
the `"sharpe_ratio"` key. -/
structure Summary where
  num_trades : Nat
  avg_return_pct : Option ℚ
  win_rate : Option ℚ
  best_trade_pct : Option ℚ
  worst_trade_pct : Option ℚ
  sharpe : Option ℝ
  max_drawdown_pct : Option ℚ
  cagr : Option ℝ
  win_rate_p_value : Option ℚ

/-- Embedding of `summarize_backtest` (lines 106–149).  The empty frame maps
to the all-`none` record (lines 107–118); otherwise every metric is computed
from `r = results["return_pct"]` in the given row order — the code performs
no sort. -/
noncomputable def summarize_backtest (results : List ResultRow) : Summary :=
  if results.isEmpty then
    { num_trades := 0, avg_return_pct := none, win_rate := none,
      best_trade_pct := none, worst_trade_pct := none, sharpe := none,
      max_drawdown_pct := none, cagr := none, win_rate_p_value := none }
  else
    let r := results.map (fun row => row.return_pct)
    let wins := r.countP (fun x => decide (0 < x))
    let excess := r.map (fun x => x / 100)
    { num_trades := r.length
      avg_return_pct := some (r.sum / r.length)
      win_rate := some ((wins : ℚ) / r.length)
      best_trade_pct := r.max?
      worst_trade_pct := r.min?
      sharpe :=
        if 0 < sampleVar excess then
          some (sharpeVal (excess.sum / excess.length) (sampleVar excess))
        else none
      max_drawdown_pct := ((drawdownSeries r).min?).map (fun m => m * 100)
      cagr := some (cagrVal ((equityCurve r).getLast?.getD 1) (max r.length 1))
      win_rate_p_value := some (binomTailP wins r.length) }

/-! ## Frame-effect model

The Python functions receive mutable data frames.  To settle whether they
mutate their arguments, frames are stored in an explicit heap of reference
cells: `.copy()` allocates a fresh cell, and an in-place column assignment
writes to the cell the code names.  Operations that return new frames
(`sort_values`, `astype`, the arithmetic on series) allocate nothing visible
to the caller. -/

/-- A heap cell: one pandas data frame of the relevant row type. -/
inductive FrameVal where
  | sig (rows : List SignalRow)
  | price (rows : List PriceRow)
  | res (rows : List ResultRow)
deriving DecidableEq

/-- A heap of frames, addressed by allocation index. -/
abbrev Heap := List FrameVal

/-- Dereference a frame cell. -/
def hget (h : Heap) (r : Nat) : Option FrameVal := h[r]?

/-- Allocate a fresh frame cell (what `.copy()` does). -/
def halloc (h : Heap) (v : FrameVal) : Heap × Nat := (h ++ [v], h.length)

/-- Overwrite the frame a reference names (an in-place column assignment). -/
def hset (h : Heap) (r : Nat) (v : FrameVal) : Heap := h.set r v

/-- Heap-level `_normalize_prices` (lines 18–21): `df = prices.copy()`
allocates a fresh cell, the assignment `df["date"] = pd.to_datetime(df["date"])`
(the identity on canonical day numbers) writes to that fresh cell, and
`df.sort_values([...])` builds the returned frame without touching `prices`. -/
def normalize_prices_heap (h : Heap) (rPrices : Nat) : Heap × List PriceRow :=
  match hget h rPrices with
  | some (.price ps) =>
    let (h1, rDf) := halloc h (.price ps)
    let h2 := hset h1 rDf (.price ps)
    (h2, normalize_prices ps)
  | _ => (h, [])

/-- Heap-level `backtest_strategy` (lines 32–103): beyond
`_normalize_prices`, the code runs `screen_df = screen_results.copy()` and
then assigns the normalized `date_screened` column to that copy (lines
55–56); the signal loop only reads. -/
def backtest_strategy_heap (h : Heap) (rScreen rPrices : Nat)
    (config : BacktestConfig) : Heap × List Trade :=
  match hget h rScreen, hget h rPrices with
  | some (.sig sigs), some (.price ps) =>
    if sigs.isEmpty || ps.isEmpty then (h, [])
    else
      let (h1, price_df) := normalize_prices_heap h rPrices
      let (h2, rScreenDf) := halloc h1 (.sig sigs)
      let h3 := hset h2 rScreenDf (.sig sigs)
      (h3, sigs.filterMap (backtest_step price_df config))
  | _, _ => (h, [])

/-- Heap-level `summarize_backtest` (lines 106–149): the function only reads
`results` — `astype`, `cumprod`, `cummax` and the reductions all build new
series — so it performs no heap write at all. -/
noncomputable def summarize_backtest_heap (h : Heap) (rResults : Nat) :
    Heap × Summary :=
  match hget h rResults with
  | some (.res rows) => (h, summarize_backtest rows)
  | _ => (h, summarize_backtest [])

/-! ## Helper lemmas -/

theorem hget_fresh_write (h : Heap) (v w : FrameVal) (r : Nat)
    (hr : r < h.length) :
    hget (hset (h ++ [v]) h.length w) r = hget h r := by
  unfold hget hset
  rw [List.getElem?_set_ne (by omega), List.getElem?_append_left hr]

theorem length_fresh_write (h : Heap) (v w : FrameVal) :
    (hset (h ++ [v]) h.length w).length = h.length + 1 := by
  simp [hset]

theorem cumprod_getLast?_of_ne_nil :
    ∀ {l : List ℚ}, l ≠ [] → (cumprod l).getLast? = some l.prod := by
  intro l
  induction l with
  | nil => intro h; exact absurd rfl h
  | cons x xs ih =>
    intro _
    cases xs with
    | nil => simp [cumprod]
    | cons y ys =>
      have h2 := ih (by simp)
      rcases hc : cumprod (y :: ys) with _ | ⟨z, t⟩
      · exact absurd hc (by simp [cumprod])
      · rw [show cumprod (x :: y :: ys) = x :: (cumprod (y :: ys)).map (x * ·) from rfl,
          hc]
        rw [hc] at h2
        simp only [List.map_cons, List.getLast?_cons_cons]
        rw [show ((x * z) :: t.map (x * ·)) = (z :: t).map (x * ·) from rfl,
          List.getLast?_map, h2]
        simp [List.prod_cons]

theorem backtest_step_eq_some {price_df : List PriceRow} {config : BacktestConfig}
    {signal : SignalRow} {t : Trade}
    (h : backtest_step price_df config signal = some t) :
    ∃ (last_row : PriceRow) (buy_date : Nat) (buy_price : ℚ),
      (price_df.filter (fun r => r.ticker == signal.ticker)).getLast? =
        some last_row ∧
      price_on_or_after (price_df.filter (fun r => r.ticker == signal.ticker))
          signal.date_screened = some (buy_date, buy_price) ∧
      ((∃ d p,
          price_on_or_after (price_df.filter (fun r => r.ticker == signal.ticker))
            (buy_date + config.hold_days) = some (d, p) ∧
          t = ⟨signal.ticker, signal.date_screened, buy_date, d, config.hold_days,
            buy_price, p,
            ((p - buy_price) / buy_price
              - 2 * config.transaction_cost_bps / 10000) * 100,
            "time_exit"⟩) ∨
        (price_on_or_after (price_df.filter (fun r => r.ticker == signal.ticker))
            (buy_date + config.hold_days) = none ∧
          t = ⟨signal.ticker, signal.date_screened, buy_date, last_row.date,
            config.hold_days, buy_price, last_row.close,
            ((last_row.close - buy_price) / buy_price
              - 2 * config.transaction_cost_bps / 10000) * 100,
            "end_of_data"⟩)) := by
  simp only [backtest_step] at h
  split at h
  · exact absurd h (by simp)
  split at h
  · exact absurd h (by simp)
  rename_i last_row hlast
  split at h
  · exact absurd h (by simp)
  rename_i buy_date buy_price hbuy
  split at h
  · rename_i hsell
    exact ⟨last_row, buy_date, buy_price, hlast, hbuy,
      Or.inr ⟨hsell, (Option.some.inj h).symm⟩⟩
  · rename_i d p hsell
    exact ⟨last_row, buy_date, buy_price, hlast, hbuy,
      Or.inl ⟨d, p, hsell, (Option.some.inj h).symm⟩⟩

/-! ## Claims -/

/-- C1: the specified overlap guard does not exist in the code.  Two passing
signals for ticker `"AAA"` on days 0 and 59 under a 180-day hold produce two
trades, and the second trade's `buy_date` (59) is strictly before the first
trade's `sell_date` (181): the claimed per-ticker non-overlap invariant fails.
The simulator keeps no `Holding` state at all — every passing signal with
resolvable prices yields a trade. -/
theorem overlap_guard_absent :
    (backtest_strategy
        [⟨"AAA", 0, some true⟩, ⟨"AAA", 59, some true⟩]
        [⟨"AAA", 0, 100⟩, ⟨"AAA", 59, 110⟩, ⟨"AAA", 181, 120⟩]
        ⟨180, 0⟩).map (fun t => (t.ticker, t.buy_date, t.sell_date)) =
      [("AAA", 0, 181), ("AAA", 59, 181)] ∧
    ¬ List.Pairwise (fun a b : Trade => a.ticker = b.ticker → a.sell_date ≤ b.buy_date)
        (backtest_strategy
          [⟨"AAA", 0, some true⟩, ⟨"AAA", 59, some true⟩]
          [⟨"AAA", 0, 100⟩, ⟨"AAA", 59, 110⟩, ⟨"AAA", 181, 120⟩]
          ⟨180, 0⟩) := by
  decide

/-- C2: the specified filing delay does not exist in the code.
`BacktestConfig` has no `filing_delay_days` field, and the buy bar is
resolved at the signal date itself (line 68): with prices at day 0 (100),
day 45 (105) and day 225 (130), the trade buys on day 0 at price 100, not on
day 45 at 105 as the claim requires. -/
theorem filing_delay_absent :
    (backtest_strategy [⟨"AAA", 0, some true⟩]
        [⟨"AAA", 0, 100⟩, ⟨"AAA", 45, 105⟩, ⟨"AAA", 225, 130⟩]
        ⟨180, 0⟩).map (fun t => (t.buy_date, t.buy_price)) =
      [(0, (100 : ℚ))] := by
  decide

/-- C5: the emitted trade's `hold_days` field records the configured
`config.hold_days` (line 95), not the observed span `sell_date − buy_date`:
a signal at day 0 whose data ends 90 days later under `hold_days = 180`
yields a trade with the field equal to 180 while the observed span is 90. -/
theorem hold_days_records_config_value :
    (backtest_strategy [⟨"AAA", 0, some true⟩]
        [⟨"AAA", 0, 100⟩, ⟨"AAA", 90, 115⟩]
        ⟨180, 0⟩).map
        (fun t => (t.hold_days, t.sell_date - t.buy_date, t.reason_exit)) =
      [(180, 90, "end_of_data")] := by
  decide

/-- C9: empty inputs never raise: an empty signal frame or an empty price
frame makes `backtest_strategy` return the empty trade frame, and the empty
trade frame makes `summarize_backtest` return `num_trades = 0` with every
other summary field `none`. -/
theorem empty_inputs_yield_empty_outputs :
    (∀ (prices : List PriceRow) (config : BacktestConfig),
        backtest_strategy [] prices config = []) ∧
    (∀ (screen_results : List SignalRow) (config : BacktestConfig),
        backtest_strategy screen_results [] config = []) ∧
    summarize_backtest [] =
      { num_trades := 0, avg_return_pct := none, win_rate := none,
        best_trade_pct := none, worst_trade_pct := none, sharpe := none,
        max_drawdown_pct := none, cagr := none, win_rate_p_value := none } := by
  refine ⟨fun prices config => rfl, fun screen_results config => ?_, rfl⟩
  simp [backtest_strategy]

/-- C10: `backtest_strategy` and `summarize_backtest` leave the caller's
frames unchanged: every in-place write of the code targets a cell freshly
allocated by `.copy()` (lines 19–20 and 55–56), and the statistics engine
performs no write at all. -/
theorem frames_left_unchanged
    (h : Heap) (rS rP rR : Nat) (config : BacktestConfig)
    (sigs : List SignalRow) (ps : List PriceRow)
    (hS : hget h rS = some (.sig sigs)) (hP : hget h rP = some (.price ps)) :
    hget (backtest_strategy_heap h rS rP config).1 rS = some (.sig sigs) ∧
    hget (backtest_strategy_heap h rS rP config).1 rP = some (.price ps) ∧
    (summarize_backtest_heap h rR).1 = h := by
  have hrS : rS < h.length := by
    by_contra hc
    push_neg at hc
    simp [hget, List.getElem?_eq_none hc] at hS
  have hrP : rP < h.length := by
    by_contra hc
    push_neg at hc
    simp [hget, List.getElem?_eq_none hc] at hP
  have hmain : ∀ r, r < h.length →
      hget (backtest_strategy_heap h rS rP config).1 r = hget h r := by
    intro r hr
    simp only [backtest_strategy_heap, normalize_prices_heap, halloc, hS, hP]
    split
    · rfl
    · rw [hget_fresh_write _ _ _ _ (by rw [length_fresh_write]; omega),
        hget_fresh_write _ _ _ _ hr]
  refine ⟨(hmain rS hrS).trans hS, (hmain rP hrP).trans hP, ?_⟩
  rcases hF : hget h rR with _ | f
  · simp [summarize_backtest_heap, hF]
  · cases f <;> simp [summarize_backtest_heap, hF]

/-- Counterexample to C6: `_normalize_prices` performs no deduplication —
two input rows with the same `(ticker, date)` both survive normalization, so
dates within a ticker are not unique. -/
theorem duplicate_price_dates_retained :
    normalize_prices [⟨"AAA", 0, 100⟩, ⟨"AAA", 0, 101⟩] =
      [⟨"AAA", 0, 100⟩, ⟨"AAA", 0, 101⟩] ∧
    ¬ List.Pairwise
        (fun a b : PriceRow => ¬(a.ticker = b.ticker ∧ a.date = b.date))
        (normalize_prices [⟨"AAA", 0, 100⟩, ⟨"AAA", 0, 101⟩]) := by
  constructor
  · decide
  · decide

/-- C6 (amended): after normalization each ticker's series is sorted
ascending by date, and the normalized frame is a permutation of the input —
duplicate `(ticker, date)` rows are all retained (the stable sort keeps them
in input order) rather than reduced to one entry. -/
theorem normalized_series_sorted_per_ticker (prices : List PriceRow) (t : String) :
    List.Pairwise (fun a b : PriceRow => a.date ≤ b.date)
      ((normalize_prices prices).filter (fun r => r.ticker == t)) ∧
    (normalize_prices prices).Perm prices := by
  constructor
  · have hsorted : (normalize_prices prices).Pairwise priceLe :=
      List.sorted_insertionSort priceLe prices
    have hfilter : ((normalize_prices prices).filter
        (fun r => r.ticker == t)).Pairwise priceLe := hsorted.filter _
    refine hfilter.imp_of_mem ?_
    intro a b ha hb hab
    have hat : a.ticker = t := by
      simpa using (List.mem_filter.mp ha).2
    have hbt : b.ticker = t := by
      simpa using (List.mem_filter.mp hb).2
    rcases hab with hlt | ⟨_, hd⟩
    · rw [hat, hbt] at hlt
      exact absurd hlt (lt_irrefl _)
    · exact hd
  · exact List.perm_insertionSort priceLe prices

/-- Counterexample to C4: `summarize_backtest` performs no sort by
`buy_date`; it consumes the rows in input order, so permuting the rows
changes `max_drawdown_pct` (here `some (-5)` versus `some 0`). -/
theorem max_drawdown_not_permutation_invariant :
    ([⟨10, 0, 5⟩, ⟨-5, 1, 6⟩] : List ResultRow).Perm [⟨-5, 1, 6⟩, ⟨10, 0, 5⟩] ∧
    (summarize_backtest [⟨10, 0, 5⟩, ⟨-5, 1, 6⟩]).max_drawdown_pct ≠
      (summarize_backtest [⟨-5, 1, 6⟩, ⟨10, 0, 5⟩]).max_drawdown_pct := by
  constructor
  · decide
  · have h1 : (summarize_backtest [⟨10, 0, 5⟩, ⟨-5, 1, 6⟩]).max_drawdown_pct =
        some (-5) := by
      norm_num [summarize_backtest, drawdownSeries, equityCurve, cumprod, cummax,
        List.min?, List.foldl, min_def, max_def]
    have h2 : (summarize_backtest [⟨-5, 1, 6⟩, ⟨10, 0, 5⟩]).max_drawdown_pct =
        some 0 := by
      norm_num [summarize_backtest, drawdownSeries, equityCurve, cumprod, cummax,
        List.min?, List.foldl, min_def, max_def]
    rw [h1, h2]
    simp

/-- C4 (amended): the code's `cagr` depends only on the multiset of
`return_pct` values — it is `equity_final ^ (252 / num_trades) − 1`, where
`equity_final` is the product of all `1 + r/100` factors — so `cagr` is
invariant under permutation of the result rows; `max_drawdown_pct`, computed
over the rows in input order, is not. -/
theorem cagr_permutation_invariant (l1 l2 : List ResultRow)
    (h : l1.Perm l2) :
    (summarize_backtest l1).cagr = (summarize_backtest l2).cagr := by
  rcases l1 with _ | ⟨a, l1'⟩ <;> rcases l2 with _ | ⟨b, l2'⟩
  · rfl
  · have := h.length_eq; simp at this
  · have := h.length_eq; simp at this
  · have hr : ((a :: l1').map ResultRow.return_pct).Perm
        ((b :: l2').map ResultRow.return_pct) := h.map _
    have e1 : (equityCurve ((a :: l1').map ResultRow.return_pct)).getLast?.getD 1 =
        (((a :: l1').map ResultRow.return_pct).map (fun x => 1 + x / 100)).prod := by
      rw [equityCurve, cumprod_getLast?_of_ne_nil (by simp)]
      rfl
    have e2 : (equityCurve ((b :: l2').map ResultRow.return_pct)).getLast?.getD 1 =
        (((b :: l2').map ResultRow.return_pct).map (fun x => 1 + x / 100)).prod := by
      rw [equityCurve, cumprod_getLast?_of_ne_nil (by simp)]
      rfl
    simp only [summarize_backtest, List.isEmpty_cons, Bool.false_eq_true, if_false]
    rw [e1, e2, (hr.map _).prod_eq, hr.length_eq]

/-- Witness for the amended C4 theorem at a concrete two-row permutation. -/
theorem cagr_permutation_invariant_witness :
    ([⟨10, 0, 5⟩, ⟨-5, 1, 6⟩] : List ResultRow).Perm [⟨-5, 1, 6⟩, ⟨10, 0, 5⟩] ∧
    (summarize_backtest [⟨10, 0, 5⟩, ⟨-5, 1, 6⟩]).cagr =
      (summarize_backtest [⟨-5, 1, 6⟩, ⟨10, 0, 5⟩]).cagr :=
  ⟨by decide, cagr_permutation_invariant _ _ (by decide)⟩

/-- C3: the code's `cagr` is trade-count-based, not time-weighted.  For one
trade with `return_pct = 100` spanning exactly two calendar years (buy day 0,
sell day 730), the code computes `equity_final ^ (252 / num_trades) − 1 =
2 ^ 252 − 1` — never `none`, ignoring the dates — which is far outside the
`(0.40, 0.42)` range the claim's time-weighted formula would give. -/
theorem cagr_is_trade_count_based :
    (summarize_backtest [⟨100, 0, 730⟩]).cagr = some (cagrVal 2 1) ∧
    cagrVal 2 1 = (2 : ℝ) ^ (252 : ℕ) - 1 ∧
    (0.42 : ℝ) < (2 : ℝ) ^ (252 : ℕ) - 1 := by
  refine ⟨?_, ?_, by norm_num⟩
  · norm_num [summarize_backtest, equityCurve, cumprod]
  · rw [cagrVal]
    norm_num

/-- C7: every emitted trade's `return_pct` is the net-of-cost formula
`((sell − buy)/buy − 2·bps/10000) · 100` computed from its own recorded
prices and the configured round-trip cost (lines 85–98). -/
theorem net_return_formula (screen_results : List SignalRow)
    (prices : List PriceRow) (config : BacktestConfig) (t : Trade)
    (ht : t ∈ backtest_strategy screen_results prices config)
    (hbp : t.buy_price ≠ 0) :
    t.return_pct = ((t.sell_price - t.buy_price) / t.buy_price
      - 2 * config.transaction_cost_bps / 10000) * 100 := by
  simp only [backtest_strategy] at ht
  split at ht
  · simp at ht
  · obtain ⟨s, _, hstep⟩ := List.mem_filterMap.mp ht
    obtain ⟨lr, bd, bp, _, _, hcase⟩ := backtest_step_eq_some hstep
    rcases hcase with ⟨d, p, _, rfl⟩ | ⟨_, rfl⟩ <;> rfl

/-- Evaluation of the transaction-cost example: prices 100 → 110 with
`transaction_cost_bps = 50` yield one trade with `return_pct = 9`. -/
theorem eval_cost_example :
    backtest_strategy [⟨"AAA", 0, some true⟩]
        [⟨"AAA", 0, 100⟩, ⟨"AAA", 181, 110⟩] ⟨180, 50⟩ =
      [⟨"AAA", 0, 0, 181, 180, 100, 110, 9, "time_exit"⟩] := by
  have h : normalize_prices [⟨"AAA", 0, 100⟩, ⟨"AAA", 181, 110⟩] =
      [⟨"AAA", 0, 100⟩, ⟨"AAA", 181, 110⟩] :=
    List.Sorted.insertionSort_eq (by decide)
  simp [backtest_strategy, h, backtest_step, price_on_or_after]
  norm_num

/-- Witness for C7: the emitted trade of the 100 → 110 example at 50 bps
satisfies the net-return formula, with value 9. -/
theorem net_return_formula_witness :
    (⟨"AAA", 0, 0, 181, 180, 100, 110, 9, "time_exit"⟩ : Trade) ∈
        backtest_strategy [⟨"AAA", 0, some true⟩]
          [⟨"AAA", 0, 100⟩, ⟨"AAA", 181, 110⟩] ⟨180, 50⟩ ∧
    (9 : ℚ) = ((110 - 100) / 100 - 2 * 50 / 10000) * 100 := by
  have hmem : (⟨"AAA", 0, 0, 181, 180, 100, 110, 9, "time_exit"⟩ : Trade) ∈
      backtest_strategy [⟨"AAA", 0, some true⟩]
        [⟨"AAA", 0, 100⟩, ⟨"AAA", 181, 110⟩] ⟨180, 50⟩ := by
    rw [eval_cost_example]
    exact List.mem_singleton.mpr rfl
  exact ⟨hmem,
    net_return_formula _ _ _ _ hmem (by norm_num)⟩

/-- C8: for every emitted trade, when no bar exists at or after
`buy_date + hold_days` the exit bar is the last bar of the ticker's series
(which always exists) with `reason_exit = "end_of_data"`; otherwise the exit
is the first bar at or after the target with `reason_exit = "time_exit"`
(lines 74–83). -/
theorem exit_bar_resolution (screen_results : List SignalRow)
    (prices : List PriceRow) (config : BacktestConfig) (t : Trade)
    (ht : t ∈ backtest_strategy screen_results prices config) :
    (price_on_or_after
        ((normalize_prices prices).filter (fun r => r.ticker == t.ticker))
        (t.buy_date + config.hold_days) = none →
      t.reason_exit = "end_of_data" ∧
      ∃ row, ((normalize_prices prices).filter
          (fun r => r.ticker == t.ticker)).getLast? = some row ∧
        t.sell_date = row.date ∧ t.sell_price = row.close) ∧
    (∀ d p, price_on_or_after
        ((normalize_prices prices).filter (fun r => r.ticker == t.ticker))
        (t.buy_date + config.hold_days) = some (d, p) →
      t.reason_exit = "time_exit" ∧ t.sell_date = d ∧ t.sell_price = p) := by
  simp only [backtest_strategy] at ht
  split at ht
  · simp at ht
  · obtain ⟨s, _, hstep⟩ := List.mem_filterMap.mp ht
    obtain ⟨lr, bd, bp, hlast, hbuy, hcase⟩ := backtest_step_eq_some hstep
    rcases hcase with ⟨d, p, hsell, rfl⟩ | ⟨hsell, rfl⟩
    · constructor
      · intro hnone
        rw [show (⟨s.ticker, s.date_screened, bd, d, config.hold_days, bp, p,
            ((p - bp) / bp - 2 * config.transaction_cost_bps / 10000) * 100,
            "time_exit"⟩ : Trade).buy_date = bd from rfl] at hnone
        rw [hsell] at hnone
        simp at hnone
      · intro d' p' hsome
        rw [show (⟨s.ticker, s.date_screened, bd, d, config.hold_days, bp, p,
            ((p - bp) / bp - 2 * config.transaction_cost_bps / 10000) * 100,
            "time_exit"⟩ : Trade).buy_date = bd from rfl] at hsome
        rw [hsell] at hsome
        simp only [Option.some.injEq, Prod.mk.injEq] at hsome
        exact ⟨rfl, hsome.1, hsome.2⟩
    · constructor
      · intro _
        exact ⟨rfl, lr, hlast, rfl, rfl⟩
      · intro d' p' hsome
        rw [show (⟨s.ticker, s.date_screened, bd, lr.date, config.hold_days, bp,
            lr.close,
            ((lr.close - bp) / bp - 2 * config.transaction_cost_bps / 10000) * 100,
            "end_of_data"⟩ : Trade).buy_date = bd from rfl] at hsome
        rw [hsell] at hsome
        simp at hsome

/-- Evaluation of the end-of-data example: a signal at day 0 with data
ending on day 90 under a 180-day hold exits at the last bar. -/
theorem eval_end_of_data_example :
    backtest_strategy [⟨"AAA", 0, some true⟩]
        [⟨"AAA", 0, 100⟩, ⟨"AAA", 90, 115⟩] ⟨180, 0⟩ =
      [⟨"AAA", 0, 0, 90, 180, 100, 115, 15, "end_of_data"⟩] := by
  have h : normalize_prices [⟨"AAA", 0, 100⟩, ⟨"AAA", 90, 115⟩] =
      [⟨"AAA", 0, 100⟩, ⟨"AAA", 90, 115⟩] :=
    List.Sorted.insertionSort_eq (by decide)
  simp [backtest_strategy, h, backtest_step, price_on_or_after]
  norm_num

/-- Witness for C8: the end-of-data example's trade exits at the series'
last bar `(90, 115)` with reason `"end_of_data"`. -/
theorem exit_bar_resolution_witness :
    (⟨"AAA", 0, 0, 90, 180, 100, 115, 15, "end_of_data"⟩ : Trade) ∈
        backtest_strategy [⟨"AAA", 0, some true⟩]
          [⟨"AAA", 0, 100⟩, ⟨"AAA", 90, 115⟩] ⟨180, 0⟩ ∧
    ((⟨"AAA", 0, 0, 90, 180, 100, 115, 15, "end_of_data"⟩ : Trade).reason_exit =
        "end_of_data" ∧
      ∃ row, ((normalize_prices [⟨"AAA", 0, 100⟩, ⟨"AAA", 90, 115⟩]).filter
          (fun r => r.ticker == "AAA")).getLast? = some row ∧
        (90 : Nat) = row.date ∧ (115 : ℚ) = row.close) := by
  have hmem : (⟨"AAA", 0, 0, 90, 180, 100, 115, 15, "end_of_data"⟩ : Trade) ∈
      backtest_strategy [⟨"AAA", 0, some true⟩]
        [⟨"AAA", 0, 100⟩, ⟨"AAA", 90, 115⟩] ⟨180, 0⟩ := by
    rw [eval_end_of_data_example]
    exact List.mem_singleton.mpr rfl
  exact ⟨hmem,
    (exit_bar_resolution _ _ _ _ hmem).1 (by decide)⟩

/-- Witness for C10 at a concrete three-cell heap. -/
theorem frames_left_unchanged_witness :
    hget (backtest_strategy_heap
        [FrameVal.sig [⟨"AAA", 0, some true⟩],
         FrameVal.price [⟨"AAA", 0, 100⟩],
         FrameVal.res [⟨10, 0, 5⟩]] 0 1 ⟨180, 0⟩).1 0 =
      some (FrameVal.sig [⟨"AAA", 0, some true⟩]) ∧
    hget (backtest_strategy_heap
        [FrameVal.sig [⟨"AAA", 0, some true⟩],
         FrameVal.price [⟨"AAA", 0, 100⟩],
         FrameVal.res [⟨10, 0, 5⟩]] 0 1 ⟨180, 0⟩).1 1 =
      some (FrameVal.price [⟨"AAA", 0, 100⟩]) ∧
    (summarize_backtest_heap
        [FrameVal.sig [⟨"AAA", 0, some true⟩],
         FrameVal.price [⟨"AAA", 0, 100⟩],
         FrameVal.res [⟨10, 0, 5⟩]] 2).1 =
      [FrameVal.sig [⟨"AAA", 0, some true⟩],
       FrameVal.price [⟨"AAA", 0, 100⟩],
       FrameVal.res [⟨10, 0, 5⟩]] :=
  frames_left_unchanged _ 0 1 2 ⟨180, 0⟩ _ _ rfl rfl

end StockSystem
